import Mathlib

/-!
# OCR submission workflow (`src/src/App.js`)

A shallow embedding of the React component `App`: its eight `useState` cells
become the fields of `State`, every handler becomes a function on `State`,
and the asynchronous `processOCR` is split at its single `await` boundary
into the synchronous part (`processOCR`, which issues the `fetch`) and the
continuation that runs once the call has settled (`processOCR_resume`).

The wiring of the handlers to the rendered controls (which form is shown,
which button is disabled) is modelled by `step` on `System`, a `State`
together with the list of calls still in flight.  `stepRequired` refines it
with the browser's validation of the `required` inputs, and `track` also
records the submission attempt that completed last.
-/

namespace OcrApp

/-! ## Data model -/

/-- A browser `File` handle, as delivered by the file input. -/
structure File where
  name : String
  deriving DecidableEq, Repr

/-- The `useState` cells of `App` (lines 5-13).  `results` holds whatever
`setResults` was given: a string, or `undefined` (here `none`) when a
successful response carries no `text` property. -/
structure State where
  activeTab : String
  file : Option File
  imageUrl : String
  targetLang : String
  results : Option String
  isLoading : Bool
  error : String
  previewUrl : String
  deriving DecidableEq, Repr

/-- The initial values passed to `useState` (lines 5-13). -/
def initialState : State where
  activeTab := "file"
  file := none
  imageUrl := ""
  targetLang := ""
  results := some ""
  isLoading := false
  error := ""
  previewUrl := ""

/-- Line 15. -/
def BASE_URL : String := "https://tesocr-fa5p.onrender.com"

/-- A value appended to a `FormData`: a file or a string. -/
inductive FormValue where
  | file (f : File)
  | str (s : String)
  deriving DecidableEq, Repr

/-- The argument handed to `processOCR`: the `FormData` built by
`handleFileSubmit` (its entries in append order) or the object literal built
by `handleUrlSubmit` (its properties in insertion order). -/
inductive Payload where
  | formData (entries : List (String × FormValue))
  | object (fields : List (String × String))
  deriving DecidableEq, Repr

/-- The `body` option of the `fetch` call (line 46): the payload itself (a
`FormData` is sent as a multipart form) or `JSON.stringify` of it. -/
inductive Body where
  | raw (p : Payload)
  | jsonText (p : Payload)
  deriving DecidableEq, Repr

/-- One `fetch` call (lines 44-48). -/
structure Request where
  url : String
  method : String
  body : Body
  headers : List (String × String)
  deriving DecidableEq, Repr

/-- How the awaited part of `processOCR` can turn out.
* `rejected m`: `fetch` itself rejects with an error whose `message` is `m`;
* `unparseable ok m`: a response arrives but `response.json()` rejects with
  an error whose `message` is `m`;
* `nullBody ok m`: a response arrives with `response.ok = ok` and the body
  parses to `null`; reading a property of `null` (`data.message` at line 53,
  `data.text` at line 56) throws a `TypeError`, whose `message`, worded by the
  JavaScript engine, is `m`;
* `response ok data`: a response arrives with `response.ok = ok` and a body
  that parses to a JSON object whose property values are strings; `data`
  lists the properties, and `data.message`, `data.text` are looked up in it
  (`none` is `undefined`).  A body that is a number, boolean, string or array
  has neither property and behaves like `response ok []`; objects with
  property values that are not strings are not covered. -/
inductive FetchOutcome where
  | rejected (message : String)
  | unparseable (ok : Bool) (message : String)
  | nullBody (ok : Bool) (message : String)
  | response (ok : Bool) (data : List (String × String))
  deriving DecidableEq, Repr

/-! ## Handlers -/

/-- Lines 17-21. -/
def handleTabChange (tab : String) (s : State) : State :=
  { s with activeTab := tab, results := some "", error := "" }

/-- Lines 23-29.  `selectedFile` is `e.target.files[0]`, `none` when the
picker was cancelled; `createObjectURL` is the browser's
`URL.createObjectURL`. -/
def handleFileChange (createObjectURL : File → String) (selectedFile : Option File)
    (s : State) : State :=
  match selectedFile with
  | some f => { s with file := some f, previewUrl := createObjectURL f }
  | none => s

/-- Lines 31-35. -/
def handleUrlChange (url : String) (s : State) : State :=
  { s with imageUrl := url, previewUrl := url }

/-- The `onChange` of both language selectors (lines 140, 180). -/
def setTargetLang (value : String) (s : State) : State :=
  { s with targetLang := value }

/-- The `onError` of both preview images (lines 131, 171). -/
def onPreviewError (s : State) : State :=
  { s with previewUrl := "" }

/-- The synchronous part of `processOCR` (lines 37-48): the three setters and
the `fetch` call, whose endpoint, body and headers depend on `activeTab`. -/
def processOCR (formData : Payload) (s : State) : State × List Request :=
  let endpoint := if s.activeTab = "file" then "/ocr/upload" else "/ocr/url"
  ({ s with isLoading := true, error := "", results := some "Processing..." },
   [{ url := BASE_URL ++ endpoint
      method := "POST"
      body := if s.activeTab = "file" then Body.raw formData else Body.jsonText formData
      headers := if s.activeTab = "file" then [] else [("Content-Type", "application/json")] }])

/-- The JavaScript expression `v || d` for a property `v` that is absent
(`none`) or a string: the empty string is falsy. -/
def orDefault (v : Option String) (d : String) : String :=
  match v with
  | some m => if m = "" then d else m
  | none => d

/-- The `try` block of `processOCR` after the `fetch` (lines 44-57): either it
completes with the value given to `setResults`, or it throws an error with the
given `message`. -/
def tryBlock : FetchOutcome → Except String (Option String)
  | .rejected m => .error m
  | .unparseable _ m => .error m
  | .nullBody _ m => .error m
  | .response ok data =>
    if !ok then .error (orDefault (data.lookup "message") "OCR processing failed")
    else .ok (data.lookup "text")

/-- The continuation of `processOCR` once the call has settled (lines 50-63):
the success path or the `catch` block, then `finally`. -/
def processOCR_resume (o : FetchOutcome) (s : State) : State :=
  let s1 : State :=
    match tryBlock o with
    | .ok text => { s with results := text, error := "" }
    | .error message => { s with error := message, results := some "" }
  { s1 with isLoading := false }

/-- Lines 66-78. -/
def handleFileSubmit (s : State) : State × List Request :=
  match s.file with
  | none => ({ s with error := "Please select a file first" }, [])
  | some f =>
    let formData : List (String × FormValue) := [("file", FormValue.file f)]
    let formData :=
      if s.targetLang = "" then formData
      else formData ++ [("target_lang", FormValue.str s.targetLang)]
    processOCR (Payload.formData formData) s

/-- Lines 80-93.  Spreading the falsy `targetLang` adds no property. -/
def handleUrlSubmit (s : State) : State × List Request :=
  if s.imageUrl = "" then ({ s with error := "Please enter an image URL" }, [])
  else
    let formData : List (String × String) :=
      [("url", s.imageUrl)] ++
        (if s.targetLang = "" then [] else [("target_lang", s.targetLang)])
    processOCR (Payload.object formData) s

/-- The form rendered for the active tab (lines 114-155) decides which
handler a submit event reaches. -/
def submit (s : State) : State × List Request :=
  if s.activeTab = "file" then handleFileSubmit s else handleUrlSubmit s

/-! ## The rendered component as a transition system -/

/-- The component together with the calls it has issued that have not settled
yet. -/
structure System where
  app : State
  inFlight : List Request
  deriving DecidableEq, Repr

/-- What can happen to the mounted component. -/
inductive Event where
  | clickFileTab
  | clickUrlTab
  | fileInputChange (selectedFile : Option File)
  | urlInputChange (value : String)
  | selectLang (value : String)
  | previewError
  | submitForm
  | fetchSettled (o : FetchOutcome)
  deriving DecidableEq, Repr

/-- The `value`s of the language `option`s (lines 142-147, 182-187). -/
def langOptions : List String := ["", "es", "fr", "de", "zh", "ja"]

/-- One event of the mounted component.  A control that is not rendered, or
is disabled, delivers nothing: the file input exists only on the file tab and
the URL input only on the other one (line 114), the preview image only while
`previewUrl` is truthy (lines 126, 166), and the submit button is
`disabled` while `isLoading` (lines 150, 190).  Every event is handled by the
handlers of the latest render, so they read the current state.
`fetchSettled` resumes the oldest pending call.

`step` lets every press of an enabled submit button reach the handler of the
rendered form.  A browser that validates the `required` inputs (lines 124,
164) withholds some of these presses; `stepRequired` below adds that rule, so
every behaviour of `stepRequired` is a behaviour of `step`. -/
def step (createObjectURL : File → String) (σ : System) : Event → System
  | .clickFileTab => { σ with app := handleTabChange "file" σ.app }
  | .clickUrlTab => { σ with app := handleTabChange "url" σ.app }
  | .fileInputChange sel =>
    if σ.app.activeTab = "file" then
      { σ with app := handleFileChange createObjectURL sel σ.app }
    else σ
  | .urlInputChange v =>
    if σ.app.activeTab = "file" then σ
    else { σ with app := handleUrlChange v σ.app }
  | .selectLang v =>
    if v ∈ langOptions then { σ with app := setTargetLang v σ.app } else σ
  | .previewError =>
    if σ.app.previewUrl = "" then σ else { σ with app := onPreviewError σ.app }
  | .submitForm =>
    if σ.app.isLoading then σ
    else { app := (submit σ.app).1, inFlight := σ.inFlight ++ (submit σ.app).2 }
  | .fetchSettled o =>
    match σ.inFlight with
    | [] => σ
    | _ :: rest => { app := processOCR_resume o σ.app, inFlight := rest }

/-- The freshly mounted component. -/
def initialSystem : System := { app := initialState, inFlight := [] }

/-- The component after a sequence of events, starting from `σ`. -/
def runFrom (createObjectURL : File → String) (σ : System) (trace : List Event) : System :=
  trace.foldl (step createObjectURL) σ

/-- The component after a sequence of events since mounting. -/
def run (createObjectURL : File → String) (trace : List Event) : System :=
  runFrom createObjectURL initialSystem trace

/-- The `required` input of the rendered form is empty as far as the component
knows: no `file` on the file tab, an empty `imageUrl` on the URL tab (lines
124, 164).  The URL input is controlled (`value` is `imageUrl`), so there
this is exactly the emptiness of the field; the file input holds its own
selection, which can only be non-empty when `file` is set. -/
def requiredInputEmpty (s : State) : Bool :=
  if s.activeTab = "file" then s.file.isNone else decide (s.imageUrl = "")

/-- One event of the mounted component in a browser that validates the
`required` inputs: pressing submit while the required input is empty fires no
submit event, so no handler runs; everything else is as in `step`. -/
def stepRequired (createObjectURL : File → String) (σ : System) : Event → System
  | .submitForm =>
    if requiredInputEmpty σ.app then σ else step createObjectURL σ .submitForm
  | e => step createObjectURL σ e

/-- The component after a sequence of events since mounting, in a browser that
validates the `required` inputs. -/
def runRequired (createObjectURL : File → String) (trace : List Event) : System :=
  trace.foldl (stepRequired createObjectURL) initialSystem

/-- The component together with a record of the submission attempt that
completed last: the outcome of the latest resolved call, forgotten when a tab
button is pressed. -/
structure Tracked where
  sys : System
  completed : Option FetchOutcome
  deriving DecidableEq, Repr

/-- One event, with the record of the last completed attempt kept up to
date. -/
def trackStep (createObjectURL : File → String) (τ : Tracked) (e : Event) : Tracked where
  sys := stepRequired createObjectURL τ.sys e
  completed :=
    match e with
    | .clickFileTab => none
    | .clickUrlTab => none
    | .fetchSettled o =>
      match τ.sys.inFlight with
      | [] => τ.completed
      | _ :: _ => some o
    | _ => τ.completed

/-- The component and the record of the last completed attempt after a
sequence of events since mounting. -/
def track (createObjectURL : File → String) (trace : List Event) : Tracked :=
  trace.foldl (trackStep createObjectURL) { sys := initialSystem, completed := none }

/-- A stand-in for `URL.createObjectURL`, used to evaluate concrete traces. -/
def blobUrl (f : File) : String := "blob:" ++ f.name

/-- JavaScript truthiness of a value held by `results`. -/
def populated (v : Option String) : Bool :=
  match v with
  | some t => decide (t ≠ "")
  | none => false

/-- Exactly one of `results` and `error` is non-empty. -/
def exactlyOnePopulated (s : State) : Prop :=
  (populated s.results = true ∧ s.error = "") ∨ (populated s.results = false ∧ s.error ≠ "")

/-- Both `results` and `error` are non-empty. -/
def bothPopulated (s : State) : Prop :=
  populated s.results = true ∧ s.error ≠ ""

/-- The two messages set by the submit handlers when their input is missing
(lines 69, 83). -/
def missingInputMessages : List String :=
  ["Please select a file first", "Please enter an image URL"]

/-- What the settled call delivers is non-empty: the text handed to
`setResults`, or the message of the error that was thrown. -/
def deliveredNonEmpty (o : FetchOutcome) : Bool :=
  match tryBlock o with
  | .ok text => populated text
  | .error message => decide (message ≠ "")

/-- The preview is empty or derived from the pending input of the active tab:
the object URL of `file` on the file tab, `imageUrl` on the URL tab. -/
def previewMatchesActiveTab (createObjectURL : File → String) (s : State) : Prop :=
  s.previewUrl = "" ∨
  (s.activeTab = "file" ∧ s.file.map createObjectURL = some s.previewUrl) ∨
  (s.activeTab = "url" ∧ s.previewUrl = s.imageUrl)

/-- The preview is empty or derived from one of the two pending inputs. -/
def previewMatchesSomeInput (createObjectURL : File → String) (s : State) : Prop :=
  s.previewUrl = "" ∨ s.file.map createObjectURL = some s.previewUrl ∨
    s.previewUrl = s.imageUrl

/-- While mounted, `isLoading` is set exactly when one call is in flight. -/
def FlightInv (σ : System) : Prop :=
  σ.inFlight.length = if σ.app.isLoading then 1 else 0

/-- Once an attempt has completed and nothing is in flight, exactly one of
`results` and `error` is non-empty precisely when what that attempt delivered
is non-empty. -/
def AttemptInv (τ : Tracked) : Prop :=
  ∀ o, τ.completed = some o → τ.sys.inFlight = [] →
    (exactlyOnePopulated τ.sys.app ↔ deliveredNonEmpty o = true)

/-- A JPEG selected on the file tab, no target language. -/
def fileTabReady : State :=
  { initialState with file := some ⟨"photo.jpg"⟩, previewUrl := blobUrl ⟨"photo.jpg"⟩ }

/-- A URL typed on the URL tab, Spanish chosen as target language. -/
def urlTabReady : State :=
  { initialState with
    activeTab := "url", imageUrl := "https://x/img.png", previewUrl := "https://x/img.png",
    targetLang := "es" }

/-- A file is selected and the submit button pressed; the call is pending. -/
def pendingTrace : List Event := [.fileInputChange (some ⟨"a.jpg"⟩), .submitForm]

/-! ## Auxiliary lemmas -/

lemma processOCR_fst (p : Payload) (s : State) :
    (processOCR p s).1 =
      { s with isLoading := true, error := "", results := some "Processing..." } := rfl

lemma processOCR_snd_length (p : Payload) (s : State) : (processOCR p s).2.length = 1 := rfl

lemma resume_isLoading (o : FetchOutcome) (s : State) :
    (processOCR_resume o s).isLoading = false := rfl

lemma resume_previewUrl (o : FetchOutcome) (s : State) :
    (processOCR_resume o s).previewUrl = s.previewUrl ∧
    (processOCR_resume o s).file = s.file ∧
    (processOCR_resume o s).imageUrl = s.imageUrl := by
  unfold processOCR_resume
  cases tryBlock o <;> simp

lemma submit_flight (s : State) :
    ((submit s).2 = [] ∧ (submit s).1.isLoading = s.isLoading) ∨
    ((submit s).2.length = 1 ∧ (submit s).1.isLoading = true) := by
  unfold submit handleFileSubmit handleUrlSubmit
  split
  · cases s.file with
    | none => left; simp
    | some f => right; exact ⟨processOCR_snd_length _ _, rfl⟩
  · split
    · left; simp
    · right; exact ⟨processOCR_snd_length _ _, rfl⟩

lemma submit_inputs (s : State) :
    (submit s).1.previewUrl = s.previewUrl ∧ (submit s).1.file = s.file ∧
    (submit s).1.imageUrl = s.imageUrl := by
  unfold submit handleFileSubmit handleUrlSubmit
  split
  · cases hf : s.file <;> simp [processOCR, hf]
  · split <;> simp [processOCR]

lemma step_flightInv (c : File → String) (σ : System) (e : Event) (h : FlightInv σ) :
    FlightInv (step c σ e) := by
  unfold FlightInv at *
  cases e with
  | clickFileTab => simpa [step, handleTabChange] using h
  | clickUrlTab => simpa [step, handleTabChange] using h
  | fileInputChange sel =>
    by_cases hc : σ.app.activeTab = "file"
    · cases sel <;> simpa [step, hc, handleFileChange] using h
    · simpa [step, hc] using h
  | urlInputChange v =>
    by_cases hc : σ.app.activeTab = "file"
    · simpa [step, hc] using h
    · simpa [step, hc, handleUrlChange] using h
  | selectLang v =>
    by_cases hc : v ∈ langOptions
    · simpa [step, hc, setTargetLang] using h
    · simpa [step, hc] using h
  | previewError =>
    by_cases hc : σ.app.previewUrl = ""
    · simpa [step, hc] using h
    · simpa [step, hc, onPreviewError] using h
  | submitForm =>
    cases hl : σ.app.isLoading with
    | true => simpa [step, hl] using h
    | false =>
      have h0 : σ.inFlight = [] := by simpa [hl] using h
      rcases submit_flight σ.app with ⟨h2, h1⟩ | ⟨h2, h1⟩
      · simp [step, hl, h0, h2, h1]
      · simp [step, hl, h0, h2, h1]
  | fetchSettled o =>
    cases hin : σ.inFlight with
    | nil => simpa [step, hin] using h
    | cons r rest =>
      cases hl : σ.app.isLoading with
      | false => simp [hin, hl] at h
      | true =>
        have h0 : rest = [] := by simpa [hin, hl] using h
        simp [step, hin, h0, resume_isLoading]

lemma runFrom_flightInv (c : File → String) (trace : List Event) :
    ∀ σ : System, FlightInv σ → FlightInv (runFrom c σ trace) := by
  induction trace with
  | nil => intro σ h; exact h
  | cons e es ih => intro σ h; exact ih _ (step_flightInv c σ e h)

lemma step_preview (c : File → String) (σ : System) (e : Event)
    (h : previewMatchesSomeInput c σ.app) : previewMatchesSomeInput c (step c σ e).app := by
  unfold previewMatchesSomeInput at *
  cases e with
  | clickFileTab => simpa [step, handleTabChange] using h
  | clickUrlTab => simpa [step, handleTabChange] using h
  | fileInputChange sel =>
    by_cases hc : σ.app.activeTab = "file"
    · cases sel with
      | none => simpa [step, hc, handleFileChange] using h
      | some f => simp [step, hc, handleFileChange]
    · simpa [step, hc] using h
  | urlInputChange v =>
    by_cases hc : σ.app.activeTab = "file"
    · simpa [step, hc] using h
    · simp [step, hc, handleUrlChange]
  | selectLang v =>
    by_cases hc : v ∈ langOptions
    · simpa [step, hc, setTargetLang] using h
    · simpa [step, hc] using h
  | previewError =>
    by_cases hc : σ.app.previewUrl = ""
    · simp [step, hc]
    · simp [step, hc, onPreviewError]
  | submitForm =>
    cases hl : σ.app.isLoading with
    | true => simpa [step, hl] using h
    | false =>
      obtain ⟨h1, h2, h3⟩ := submit_inputs σ.app
      simpa [step, hl, h1, h2, h3] using h
  | fetchSettled o =>
    cases hin : σ.inFlight with
    | nil => simpa [step, hin] using h
    | cons r rest =>
      obtain ⟨h1, h2, h3⟩ := resume_previewUrl o σ.app
      simpa [step, hin, h1, h2, h3] using h

lemma runFrom_preview (c : File → String) (trace : List Event) :
    ∀ σ : System, previewMatchesSomeInput c σ.app →
      previewMatchesSomeInput c (runFrom c σ trace).app := by
  induction trace with
  | nil => intro σ h; exact h
  | cons e es ih => intro σ h; exact ih _ (step_preview c σ e h)

lemma stepRequired_cases (c : File → String) (σ : System) (e : Event) :
    stepRequired c σ e = σ ∨ stepRequired c σ e = step c σ e := by
  cases e with
  | submitForm =>
    by_cases h : requiredInputEmpty σ.app = true
    · left; simp [stepRequired, h]
    · right; simp [stepRequired, h]
  | _ => right; rfl

lemma runRequired_flightInv (c : File → String) (trace : List Event) :
    ∀ σ : System, FlightInv σ → FlightInv (trace.foldl (stepRequired c) σ) := by
  induction trace with
  | nil => intro σ h; exact h
  | cons e es ih =>
    intro σ h
    refine ih _ ?_
    rcases stepRequired_cases c σ e with h1 | h1
    · rw [h1]; exact h
    · rw [h1]; exact step_flightInv c σ e h

lemma flightInv_isLoading (σ : System) (h : FlightInv σ) :
    σ.app.isLoading = !σ.inFlight.isEmpty := by
  unfold FlightInv at h
  cases hl : σ.app.isLoading with
  | true =>
    rw [hl] at h
    cases hin : σ.inFlight with
    | nil => simp [hin] at h
    | cons r rest => rfl
  | false =>
    rw [hl] at h
    have h0 : σ.inFlight = [] := by simpa using h
    simp [h0]

lemma resume_not_both (o : FetchOutcome) (s : State) :
    ¬ bothPopulated (processOCR_resume o s) := by
  unfold bothPopulated processOCR_resume
  cases tryBlock o <;> simp [populated]

lemma resume_exactlyOne (o : FetchOutcome) (s : State) :
    exactlyOnePopulated (processOCR_resume o s) ↔ deliveredNonEmpty o = true := by
  unfold exactlyOnePopulated deliveredNonEmpty processOCR_resume
  cases tryBlock o <;> simp [populated]

lemma submit_output (s : State) :
    ((submit s).1.error = "" ∧ (submit s).2.length = 1) ∨
    (requiredInputEmpty s = true ∧ (submit s).1.error ∈ missingInputMessages ∧
      (submit s).2 = []) := by
  unfold submit handleFileSubmit handleUrlSubmit requiredInputEmpty missingInputMessages
  by_cases ht : s.activeTab = "file"
  · cases hf : s.file with
    | none => right; simp [ht, hf]
    | some f => left; simp [ht, hf, processOCR]
  · by_cases hu : s.imageUrl = ""
    · right; simp [ht, hu]
    · left; simp [ht, hu, processOCR]

lemma step_output (c : File → String) (σ : System) (e : Event) :
    ((step c σ e).app.results = σ.app.results ∧ (step c σ e).app.error = σ.app.error ∧
      (step c σ e).inFlight = σ.inFlight) ∨
    (¬ bothPopulated (step c σ e).app ∧
      (e = .clickFileTab ∨ e = .clickUrlTab ∨
        (∃ o, e = .fetchSettled o ∧ σ.inFlight ≠ [] ∧
          (step c σ e).app = processOCR_resume o σ.app) ∨
        (e = .submitForm ∧ (step c σ e).inFlight ≠ []))) ∨
    (e = .submitForm ∧ requiredInputEmpty σ.app = true ∧
      (step c σ e).app.error ∈ missingInputMessages) := by
  cases e with
  | clickFileTab => right; left; simp [step, handleTabChange, bothPopulated]
  | clickUrlTab => right; left; simp [step, handleTabChange, bothPopulated]
  | fileInputChange sel =>
    left
    by_cases hc : σ.app.activeTab = "file"
    · cases sel <;> simp [step, hc, handleFileChange]
    · simp [step, hc]
  | urlInputChange v =>
    left
    by_cases hc : σ.app.activeTab = "file"
    · simp [step, hc]
    · simp [step, hc, handleUrlChange]
  | selectLang v =>
    left
    by_cases hc : v ∈ langOptions
    · simp [step, hc, setTargetLang]
    · simp [step, hc]
  | previewError =>
    left
    by_cases hc : σ.app.previewUrl = ""
    · simp [step, hc]
    · simp [step, hc, onPreviewError]
  | submitForm =>
    cases hl : σ.app.isLoading with
    | true => left; simp [step, hl]
    | false =>
      rcases submit_output σ.app with ⟨h1, h2⟩ | ⟨h1, h2, _⟩
      · right; left
        refine ⟨?_, Or.inr (Or.inr (Or.inr ⟨rfl, ?_⟩))⟩
        · simp [step, hl, bothPopulated, h1]
        · intro h0
          have : (submit σ.app).2 = [] := by
            simp [step, hl] at h0
            exact h0.2
          simp [this] at h2
      · right; right
        exact ⟨rfl, h1, by simpa [step, hl] using h2⟩
  | fetchSettled o =>
    cases hin : σ.inFlight with
    | nil => left; simp [step, hin]
    | cons r rest =>
      right; left
      have happ : (step c σ (.fetchSettled o)).app = processOCR_resume o σ.app := by
        simp [step, hin]
      refine ⟨?_, Or.inr (Or.inr (Or.inl ⟨o, rfl, by simp, happ⟩))⟩
      rw [happ]
      exact resume_not_both o σ.app

lemma bothPopulated_congr (s t : State) (hr : t.results = s.results) (he : t.error = s.error) :
    bothPopulated t ↔ bothPopulated s := by
  unfold bothPopulated
  rw [hr, he]

lemma exactlyOnePopulated_congr (s t : State) (hr : t.results = s.results)
    (he : t.error = s.error) : exactlyOnePopulated t ↔ exactlyOnePopulated s := by
  unfold exactlyOnePopulated
  rw [hr, he]

lemma step_bothOrMissing (c : File → String) (σ : System) (e : Event)
    (h : ¬ bothPopulated σ.app ∨ σ.app.error ∈ missingInputMessages) :
    ¬ bothPopulated (step c σ e).app ∨ (step c σ e).app.error ∈ missingInputMessages := by
  rcases step_output c σ e with ⟨hr, he, _⟩ | ⟨hn, _⟩ | ⟨_, _, hm⟩
  · rcases h with h | h
    · left; rwa [bothPopulated_congr σ.app _ hr he]
    · right; rwa [he]
  · exact Or.inl hn
  · exact Or.inr hm

lemma run_bothOrMissing (c : File → String) (trace : List Event) :
    ∀ σ : System, (¬ bothPopulated σ.app ∨ σ.app.error ∈ missingInputMessages) →
      (¬ bothPopulated (runFrom c σ trace).app ∨
        (runFrom c σ trace).app.error ∈ missingInputMessages) := by
  induction trace with
  | nil => intro σ h; exact h
  | cons e es ih => intro σ h; exact ih _ (step_bothOrMissing c σ e h)

lemma stepRequired_neverBoth (c : File → String) (σ : System) (e : Event)
    (h : ¬ bothPopulated σ.app) : ¬ bothPopulated (stepRequired c σ e).app := by
  rcases step_output c σ e with ⟨hr, he, _⟩ | ⟨hn, _⟩ | ⟨hs, hq, _⟩
  · rcases stepRequired_cases c σ e with h1 | h1
    · rwa [h1]
    · rwa [h1, bothPopulated_congr σ.app _ hr he]
  · rcases stepRequired_cases c σ e with h1 | h1
    · rwa [h1]
    · rwa [h1]
  · subst hs
    simpa [stepRequired, hq] using h

lemma runRequired_neverBoth (c : File → String) (trace : List Event) :
    ∀ σ : System, ¬ bothPopulated σ.app →
      ¬ bothPopulated (trace.foldl (stepRequired c) σ).app := by
  induction trace with
  | nil => intro σ h; exact h
  | cons e es ih => intro σ h; exact ih _ (stepRequired_neverBoth c σ e h)

lemma attemptInv_transfer (τ : Tracked) (σ : System) (h : AttemptInv τ)
    (hr : σ.app.results = τ.sys.app.results) (he : σ.app.error = τ.sys.app.error)
    (hf : σ.inFlight = τ.sys.inFlight) :
    AttemptInv { sys := σ, completed := τ.completed } := by
  intro o hc hin
  rw [exactlyOnePopulated_congr τ.sys.app σ.app hr he]
  exact h o hc (by rw [← hf]; exact hin)

lemma trackStep_attemptInv (c : File → String) (τ : Tracked) (e : Event)
    (h : AttemptInv τ) : AttemptInv (trackStep c τ e) := by
  cases e with
  | clickFileTab => intro o hc; simp [trackStep] at hc
  | clickUrlTab => intro o hc; simp [trackStep] at hc
  | fileInputChange sel =>
    rcases step_output c τ.sys (.fileInputChange sel) with ⟨hr, he, hf⟩ | ⟨_, hx⟩ | ⟨hx, _⟩
    · exact attemptInv_transfer τ _ h hr he hf
    · simp at hx
    · simp at hx
  | urlInputChange v =>
    rcases step_output c τ.sys (.urlInputChange v) with ⟨hr, he, hf⟩ | ⟨_, hx⟩ | ⟨hx, _⟩
    · exact attemptInv_transfer τ _ h hr he hf
    · simp at hx
    · simp at hx
  | selectLang v =>
    rcases step_output c τ.sys (.selectLang v) with ⟨hr, he, hf⟩ | ⟨_, hx⟩ | ⟨hx, _⟩
    · exact attemptInv_transfer τ _ h hr he hf
    · simp at hx
    · simp at hx
  | previewError =>
    rcases step_output c τ.sys .previewError with ⟨hr, he, hf⟩ | ⟨_, hx⟩ | ⟨hx, _⟩
    · exact attemptInv_transfer τ _ h hr he hf
    · simp at hx
    · simp at hx
  | submitForm =>
    by_cases hq : requiredInputEmpty τ.sys.app = true
    · have hs : trackStep c τ .submitForm = τ := by
        simp [trackStep, stepRequired, hq]
      rw [hs]; exact h
    · have hs : trackStep c τ .submitForm =
          { sys := step c τ.sys .submitForm, completed := τ.completed } := by
        simp [trackStep, stepRequired, hq]
      rw [hs]
      rcases step_output c τ.sys .submitForm with ⟨hr, he, hf⟩ | ⟨_, hx⟩ | ⟨_, hx, _⟩
      · exact attemptInv_transfer τ _ h hr he hf
      · intro o _ hin
        simp at hx
        exact absurd hin hx
      · exact absurd hx hq
  | fetchSettled o' =>
    cases hin : τ.sys.inFlight with
    | nil =>
      have hs : trackStep c τ (.fetchSettled o') = τ := by
        simp [trackStep, stepRequired, step, hin]
      rw [hs]; exact h
    | cons r rest =>
      intro o hc _
      have ho : o' = o := by simpa [trackStep, hin] using hc
      have happ : (trackStep c τ (.fetchSettled o')).sys.app =
          processOCR_resume o' τ.sys.app := by
        simp [trackStep, stepRequired, step, hin]
      rw [happ, ho]
      exact resume_exactlyOne o τ.sys.app

lemma track_attemptInv (c : File → String) (trace : List Event) :
    ∀ τ : Tracked, AttemptInv τ → AttemptInv (trace.foldl (trackStep c) τ) := by
  induction trace with
  | nil => intro τ h; exact h
  | cons e es ih => intro τ h; exact ih _ (trackStep_attemptInv c τ e h)

lemma track_sys (c : File → String) (trace : List Event) :
    ∀ τ : Tracked, (trace.foldl (trackStep c) τ).sys = trace.foldl (stepRequired c) τ.sys := by
  induction trace with
  | nil => intro τ; rfl
  | cons e es ih => intro τ; exact ih _

/-! ## Missing input (C1) -/

/-- C1: when the pending input of the submitting form is empty (`file` is
`null` for `handleFileSubmit`, `imageUrl` is the empty string for
`handleUrlSubmit`), the handler only sets `error` to the missing-input message
of its mode: no request is issued, `isLoading` keeps its value and every
other cell is untouched; `submit` reaches exactly these handlers on the
respective tab. -/
theorem missing_input_sets_error_only (s t : State)
    (hs : s.file = none) (ht : t.imageUrl = "") :
    handleFileSubmit s = ({ s with error := "Please select a file first" }, []) ∧
    handleUrlSubmit t = ({ t with error := "Please enter an image URL" }, []) ∧
    (handleFileSubmit s).1.isLoading = s.isLoading ∧
    (handleUrlSubmit t).1.isLoading = t.isLoading ∧
    submit { s with activeTab := "file" } =
      ({ s with activeTab := "file", error := "Please select a file first" }, []) ∧
    submit { t with activeTab := "url" } =
      ({ t with activeTab := "url", error := "Please enter an image URL" }, []) := by
  refine ⟨?_, ?_, ?_, ?_, ?_, ?_⟩
  · simp [handleFileSubmit, hs]
  · simp [handleUrlSubmit, ht]
  · simp [handleFileSubmit, hs]
  · simp [handleUrlSubmit, ht]
  · simp [submit, handleFileSubmit, hs]
  · simp [submit, handleUrlSubmit, ht]

/-- C1 at the freshly mounted component, where no file and no URL are pending. -/
theorem missing_input_sets_error_only_witness :
    (initialState.file = none ∧ initialState.imageUrl = "") ∧
    handleFileSubmit initialState =
      ({ initialState with error := "Please select a file first" }, []) ∧
    handleUrlSubmit initialState =
      ({ initialState with error := "Please enter an image URL" }, []) :=
  ⟨⟨rfl, rfl⟩,
   (missing_input_sets_error_only initialState initialState rfl rfl).1,
   (missing_input_sets_error_only initialState initialState rfl rfl).2.1⟩

/-! ## Resolution of a dispatched call (C2, C3, C8, C9) -/

/-- C2: whatever the state is when the call settles, a successful response
(`response.ok`) whose body has `text = T` leaves `results = T`, `error = ''`
and `isLoading = false`, for every string `T`. -/
theorem success_sets_results (s : State) (data : List (String × String)) (T : String)
    (h : data.lookup "text" = some T) :
    processOCR_resume (.response true data) s =
      { s with results := some T, error := "", isLoading := false } := by
  simp [processOCR_resume, tryBlock, h]

/-- C2 for the response `{text: "Hello"}` arriving in a pending state. -/
theorem success_sets_results_witness :
    List.lookup "text" [("text", "Hello")] = some "Hello" ∧
    processOCR_resume (.response true [("text", "Hello")]) (processOCR (.formData []) initialState).1 =
      { (processOCR (.formData []) initialState).1 with
        results := some "Hello", error := "", isLoading := false } :=
  ⟨by decide, success_sets_results _ _ "Hello" (by decide)⟩

/-- C3 fails for the empty message: a failing response with body
`{message: ""}` leaves the generic text in `error`, not the empty `M`. -/
theorem empty_message_replaced_by_fallback :
    (run blobUrl [.fileInputChange (some ⟨"a.jpg"⟩), .submitForm,
        .fetchSettled (.response false [("message", "")])]).app.error
      = "OCR processing failed" ∧
    (run blobUrl [.fileInputChange (some ⟨"a.jpg"⟩), .submitForm,
        .fetchSettled (.response false [("message", "")])]).app.error ≠ "" := by
  decide

/-- C3 (amended): a failing response (`response.ok` false) whose body has
`message = M` for a non-empty string `M` leaves `error = M`, `results = ''`
and `isLoading = false`. -/
theorem failure_sets_error_message (s : State) (data : List (String × String)) (M : String)
    (hM : M ≠ "") (h : data.lookup "message" = some M) :
    processOCR_resume (.response false data) s =
      { s with error := M, results := some "", isLoading := false } := by
  simp [processOCR_resume, tryBlock, orDefault, h, hM]

/-- C3 (amended) for the response `{message: "bad image"}` arriving in a pending
state. -/
theorem failure_sets_error_message_witness :
    ("bad image" ≠ "" ∧ List.lookup "message" [("message", "bad image")] = some "bad image") ∧
    processOCR_resume (.response false [("message", "bad image")])
        (processOCR (.object []) initialState).1 =
      { (processOCR (.object []) initialState).1 with
        error := "bad image", results := some "", isLoading := false } :=
  ⟨⟨by decide, by decide⟩, failure_sets_error_message _ _ "bad image" (by decide) (by decide)⟩

/-- C8 fails for the body `null`, which has no `message` field: reading
`data.message` throws a `TypeError` and `error` receives its message (here
in the wording of Chrome and Node), not the generic text. -/
theorem null_body_shows_type_error :
    (run blobUrl (pendingTrace ++ [.fetchSettled
        (.nullBody false "Cannot read properties of null (reading 'message')")])).app.error
      = "Cannot read properties of null (reading 'message')" ∧
    (run blobUrl (pendingTrace ++ [.fetchSettled
        (.nullBody false "Cannot read properties of null (reading 'message')")])).app.error
      ≠ "OCR processing failed" := by
  decide

/-- C8 (amended): a failing response (`response.ok` false) whose body is a
JSON object with no `message` property leaves `error = 'OCR processing
failed'`, `results = ''` and `isLoading = false`. -/
theorem failure_without_message_uses_fallback (s : State) (data : List (String × String))
    (h : data.lookup "message" = none) :
    processOCR_resume (.response false data) s =
      { s with error := "OCR processing failed", results := some "", isLoading := false } := by
  simp [processOCR_resume, tryBlock, orDefault, h]

/-- C8 (amended) for a failing response whose body carries `detail` but no
`message`. -/
theorem failure_without_message_uses_fallback_witness :
    List.lookup "message" [("detail", "oops")] = none ∧
    processOCR_resume (.response false [("detail", "oops")])
        (processOCR (.object []) initialState).1 =
      { (processOCR (.object []) initialState).1 with
        error := "OCR processing failed", results := some "", isLoading := false } :=
  ⟨by decide, failure_without_message_uses_fallback _ _ (by decide)⟩

/-- C9 fails: when `fetch` rejects, `error` receives the message of the
thrown error, here the browser's "Failed to fetch", not the generic text. -/
theorem rejected_fetch_shows_thrown_message :
    (run blobUrl [.fileInputChange (some ⟨"a.jpg"⟩), .submitForm,
        .fetchSettled (.rejected "Failed to fetch")]).app.error = "Failed to fetch" ∧
    (run blobUrl [.fileInputChange (some ⟨"a.jpg"⟩), .submitForm,
        .fetchSettled (.rejected "Failed to fetch")]).app.error ≠ "OCR processing failed" := by
  decide

/-- C9 (amended): when `fetch` rejects or `response.json()` rejects, the
continuation still completes (the `catch` block absorbs the error) and leaves
`error` equal to the message of the thrown error, `results = ''` and
`isLoading = false`. -/
theorem transport_failure_shows_thrown_message (s : State) (message : String) (ok : Bool) :
    processOCR_resume (.rejected message) s =
      { s with error := message, results := some "", isLoading := false } ∧
    processOCR_resume (.unparseable ok message) s =
      { s with error := message, results := some "", isLoading := false } := by
  simp [processOCR_resume, tryBlock]

/-! ## Request construction (C4) -/

/-- C4: with a non-empty pending input, `submit` issues exactly one request.
On the file tab it is a POST to `BASE_URL + '/ocr/upload'` whose body is the
`FormData` holding `file`, followed by `target_lang` exactly when `targetLang`
is non-empty; on the URL tab it is a POST to `BASE_URL + '/ocr/url'` whose
body is the JSON text of the object holding `url`, followed by `target_lang`
exactly when `targetLang` is non-empty. -/
theorem submit_builds_request_for_active_tab (s t : State) (f : File)
    (hs : s.activeTab = "file") (hf : s.file = some f)
    (ht : t.activeTab = "url") (hu : t.imageUrl ≠ "") :
    (∃ entries,
      (submit s).2 = [{ url := BASE_URL ++ "/ocr/upload", method := "POST",
                        body := Body.raw (Payload.formData entries), headers := [] }] ∧
      (s.targetLang = "" → entries = [("file", FormValue.file f)]) ∧
      (s.targetLang ≠ "" →
        entries = [("file", FormValue.file f), ("target_lang", FormValue.str s.targetLang)])) ∧
    (∃ fields,
      (submit t).2 = [{ url := BASE_URL ++ "/ocr/url", method := "POST",
                        body := Body.jsonText (Payload.object fields),
                        headers := [("Content-Type", "application/json")] }] ∧
      (t.targetLang = "" → fields = [("url", t.imageUrl)]) ∧
      (t.targetLang ≠ "" → fields = [("url", t.imageUrl), ("target_lang", t.targetLang)])) := by
  constructor
  · by_cases hl : s.targetLang = ""
    · exact ⟨[("file", FormValue.file f)],
        by simp [submit, handleFileSubmit, processOCR, hs, hf, hl], fun _ => rfl,
        fun h => absurd hl h⟩
    · exact ⟨[("file", FormValue.file f), ("target_lang", FormValue.str s.targetLang)],
        by simp [submit, handleFileSubmit, processOCR, hs, hf, hl], fun h => absurd h hl,
        fun _ => rfl⟩
  · by_cases hl : t.targetLang = ""
    · exact ⟨[("url", t.imageUrl)],
        by simp [submit, handleUrlSubmit, processOCR, ht, hu, hl], fun _ => rfl,
        fun h => absurd hl h⟩
    · exact ⟨[("url", t.imageUrl), ("target_lang", t.targetLang)],
        by simp [submit, handleUrlSubmit, processOCR, ht, hu, hl], fun h => absurd h hl,
        fun _ => rfl⟩

/-- C4 for a JPEG without target language on the file tab and for the URL
`https://x/img.png` with target language `es` on the URL tab. -/
theorem submit_builds_request_for_active_tab_witness :
    (fileTabReady.activeTab = "file" ∧ fileTabReady.file = some ⟨"photo.jpg"⟩ ∧
      urlTabReady.activeTab = "url" ∧ urlTabReady.imageUrl ≠ "") ∧
    (submit fileTabReady).2 =
      [{ url := "https://tesocr-fa5p.onrender.com/ocr/upload", method := "POST",
         body := Body.raw (Payload.formData [("file", FormValue.file ⟨"photo.jpg"⟩)]),
         headers := [] }] ∧
    (submit urlTabReady).2 =
      [{ url := "https://tesocr-fa5p.onrender.com/ocr/url", method := "POST",
         body := Body.jsonText
           (Payload.object [("url", "https://x/img.png"), ("target_lang", "es")]),
         headers := [("Content-Type", "application/json")] }] := by
  obtain ⟨⟨entries, h1, h2, _⟩, ⟨fields, h3, _, h4⟩⟩ :=
    submit_builds_request_for_active_tab fileTabReady urlTabReady ⟨"photo.jpg"⟩
      rfl rfl rfl (by decide)
  refine ⟨⟨rfl, rfl, rfl, by decide⟩, ?_, ?_⟩
  · rw [h1, h2 rfl]; rfl
  · rw [h3, h4 (by decide)]; rfl

/-! ## Single flight (C5) -/

/-- C5 fails for the handlers themselves: with a call pending
(`isLoading = true`), `handleFileSubmit` issues a further request. -/
theorem handler_dispatches_while_loading :
    (run blobUrl pendingTrace).app.isLoading = true ∧
    (run blobUrl pendingTrace).inFlight.length = 1 ∧
    (handleFileSubmit (run blobUrl pendingTrace).app).2 =
      [{ url := "https://tesocr-fa5p.onrender.com/ocr/upload", method := "POST",
         body := Body.raw (Payload.formData [("file", FormValue.file ⟨"a.jpg"⟩)]),
         headers := [] }] ∧
    (handleFileSubmit (run blobUrl pendingTrace).app).2 ≠ [] := by
  decide

/-- C5 (amended): the submit button is disabled while `isLoading` is true, so
in such a state a submit event reaches no handler: no request is issued and
the state is unchanged; consequently, over any sequence of events of the
mounted component, at most one call is in flight at a time. -/
theorem disabled_button_keeps_single_flight (createObjectURL : File → String)
    (σ : System) (trace : List Event) (h : σ.app.isLoading = true) :
    step createObjectURL σ .submitForm = σ ∧
    (run createObjectURL trace).inFlight.length ≤ 1 := by
  constructor
  · simp [step, h]
  · have hinv : FlightInv (run createObjectURL trace) :=
      runFrom_flightInv createObjectURL trace initialSystem rfl
    unfold FlightInv at hinv
    rw [hinv]
    split <;> simp

/-- C5 (amended) while the first call is pending: two more presses of the
submit button change nothing. -/
theorem disabled_button_keeps_single_flight_witness :
    (run blobUrl pendingTrace).app.isLoading = true ∧
    step blobUrl (run blobUrl pendingTrace) .submitForm = run blobUrl pendingTrace ∧
    (run blobUrl (pendingTrace ++ [.submitForm, .submitForm])).inFlight.length ≤ 1 :=
  ⟨by decide,
   disabled_button_keeps_single_flight blobUrl (run blobUrl pendingTrace)
     (pendingTrace ++ [.submitForm, .submitForm]) (by decide)⟩

/-! ## Tab switch (C6) -/

/-- C6: `handleTabChange(m)` sets `activeTab = m`, `results = ''` and
`error = ''` and leaves `file`, `imageUrl`, `previewUrl`, `targetLang` and
`isLoading` as they were; switching away and back therefore restores both
pending inputs. -/
theorem tab_change_clears_output_only (s : State) (m away : String) :
    (handleTabChange m s).activeTab = m ∧
    (handleTabChange m s).results = some "" ∧
    (handleTabChange m s).error = "" ∧
    (handleTabChange m s).file = s.file ∧
    (handleTabChange m s).imageUrl = s.imageUrl ∧
    (handleTabChange m s).previewUrl = s.previewUrl ∧
    (handleTabChange m s).targetLang = s.targetLang ∧
    (handleTabChange m s).isLoading = s.isLoading ∧
    (handleTabChange m (handleTabChange away s)).file = s.file ∧
    (handleTabChange m (handleTabChange away s)).imageUrl = s.imageUrl :=
  ⟨rfl, rfl, rfl, rfl, rfl, rfl, rfl, rfl, rfl, rfl⟩

/-! ## Result and error after resolution (C7) -/

/-- C7 fails: a dispatched submission that resolves successfully with an
empty `text` leaves no call in flight, a completed attempt on record, and
both `results` and `error` empty. -/
theorem empty_text_leaves_both_empty :
    (run blobUrl pendingTrace).inFlight.length = 1 ∧
    (run blobUrl (pendingTrace ++ [.fetchSettled (.response true [("text", "")])])).inFlight
      = [] ∧
    (run blobUrl (pendingTrace ++ [.fetchSettled (.response true [("text", "")])])).app.isLoading
      = false ∧
    ¬ exactlyOnePopulated
      (run blobUrl (pendingTrace ++ [.fetchSettled (.response true [("text", "")])])).app ∧
    (track blobUrl (pendingTrace ++ [.fetchSettled (.response true [("text", "")])])).completed
      = some (.response true [("text", "")]) ∧
    (runRequired blobUrl
      (pendingTrace ++ [.fetchSettled (.response true [("text", "")])])).inFlight = [] ∧
    ¬ exactlyOnePopulated (runRequired blobUrl
      (pendingTrace ++ [.fetchSettled (.response true [("text", "")])])).app := by
  refine ⟨by decide, by decide, by decide, ?_, rfl, rfl, ?_⟩
  · unfold exactlyOnePopulated
    decide
  · unfold exactlyOnePopulated
    decide

/-- C7 (amended): in every state reached from the initial one by events of the
mounted component, `isLoading` is true exactly while a call is in flight and
`results` and `error` are never both non-empty; and whenever no submission is
in flight and a dispatched submission has resolved since initialisation or the
last mode switch, `isLoading` is false and exactly one of `results` and
`error` is non-empty precisely when what that resolution delivered (the text
on success, the error message on failure) is non-empty.  This holds where the
browser validates the `required` inputs; where every press of the enabled
button reaches the handler, `results` and `error` can only both be non-empty
while `error` is a missing-input message.  Right at a resolution, from any
reachable state, the same three facts hold. -/
theorem attempt_outcome_invariant (createObjectURL : File → String)
    (trace : List Event) (o : FetchOutcome) :
    (track createObjectURL trace).sys = runRequired createObjectURL trace ∧
    (runRequired createObjectURL trace).app.isLoading =
      !(runRequired createObjectURL trace).inFlight.isEmpty ∧
    ¬ bothPopulated (runRequired createObjectURL trace).app ∧
    (∀ last, (track createObjectURL trace).completed = some last →
      (runRequired createObjectURL trace).inFlight = [] →
        (runRequired createObjectURL trace).app.isLoading = false ∧
        (exactlyOnePopulated (runRequired createObjectURL trace).app ↔
          deliveredNonEmpty last = true)) ∧
    (run createObjectURL trace).app.isLoading = !(run createObjectURL trace).inFlight.isEmpty ∧
    (¬ bothPopulated (run createObjectURL trace).app ∨
      (run createObjectURL trace).app.error ∈ missingInputMessages) ∧
    (processOCR_resume o (run createObjectURL trace).app).isLoading = false ∧
    ¬ bothPopulated (processOCR_resume o (run createObjectURL trace).app) ∧
    (exactlyOnePopulated (processOCR_resume o (run createObjectURL trace).app) ↔
      deliveredNonEmpty o = true) := by
  have hsys : (track createObjectURL trace).sys = runRequired createObjectURL trace :=
    track_sys createObjectURL trace _
  have hfl : (runRequired createObjectURL trace).app.isLoading =
      !(runRequired createObjectURL trace).inFlight.isEmpty :=
    flightInv_isLoading _ (runRequired_flightInv createObjectURL trace initialSystem rfl)
  have hnever : ¬ bothPopulated initialSystem.app := by
    simp [bothPopulated, initialSystem, initialState, populated]
  refine ⟨hsys, hfl, ?_, ?_, ?_, ?_, rfl, resume_not_both _ _, resume_exactlyOne _ _⟩
  · exact runRequired_neverBoth createObjectURL trace initialSystem hnever
  · intro last hc hin
    constructor
    · rw [hfl, hin]; rfl
    · have hinv : AttemptInv (track createObjectURL trace) :=
        track_attemptInv createObjectURL trace _ (fun _ hc0 => by simp at hc0)
      have := hinv last hc (by rw [hsys]; exact hin)
      rwa [hsys] at this
  · exact flightInv_isLoading _ (runFrom_flightInv createObjectURL trace initialSystem rfl)
  · exact run_bothOrMissing createObjectURL trace initialSystem (Or.inl hnever)

/-- C7 (amended) after a file is submitted and the call resolves with the text
"Hello": the attempt is on record, nothing is in flight, and exactly one of
`results` and `error` is non-empty. -/
theorem attempt_outcome_invariant_witness :
    (track blobUrl
      (pendingTrace ++ [.fetchSettled (.response true [("text", "Hello")])])).completed
        = some (.response true [("text", "Hello")]) ∧
    (runRequired blobUrl
      (pendingTrace ++ [.fetchSettled (.response true [("text", "Hello")])])).inFlight = [] ∧
    (runRequired blobUrl
      (pendingTrace ++ [.fetchSettled (.response true [("text", "Hello")])])).app.isLoading
        = false ∧
    exactlyOnePopulated (runRequired blobUrl
      (pendingTrace ++ [.fetchSettled (.response true [("text", "Hello")])])).app := by
  have hc : (track blobUrl
      (pendingTrace ++ [.fetchSettled (.response true [("text", "Hello")])])).completed
        = some (.response true [("text", "Hello")]) := rfl
  have hin : (runRequired blobUrl
      (pendingTrace ++ [.fetchSettled (.response true [("text", "Hello")])])).inFlight = [] :=
    rfl
  have h := (attempt_outcome_invariant blobUrl
      (pendingTrace ++ [.fetchSettled (.response true [("text", "Hello")])])
      (.response true [("text", "Hello")])).2.2.2.1 _ hc hin
  exact ⟨hc, hin, h.1, h.2.2 rfl⟩

/-! ## Preview (C10) -/

/-- C10 fails: after a URL is typed on the URL tab and the file tab is
selected, the file tab shows a non-empty preview although no file is
pending. -/
theorem stale_preview_after_tab_switch :
    (run blobUrl [.clickUrlTab, .urlInputChange "https://x/img.png", .clickFileTab]).app.activeTab
      = "file" ∧
    (run blobUrl [.clickUrlTab, .urlInputChange "https://x/img.png", .clickFileTab]).app.file
      = none ∧
    (run blobUrl [.clickUrlTab, .urlInputChange "https://x/img.png", .clickFileTab]).app.previewUrl
      = "https://x/img.png" ∧
    ¬ previewMatchesActiveTab blobUrl
      (run blobUrl [.clickUrlTab, .urlInputChange "https://x/img.png", .clickFileTab]).app := by
  refine ⟨by decide, by decide, by decide, ?_⟩
  unfold previewMatchesActiveTab
  decide

/-- C10 (amended): in every state reached from the initial one by events of
the mounted component, `previewUrl` is empty, or the object URL of the
pending `file`, or exactly `imageUrl`, whichever tab is active. -/
theorem preview_matches_some_input (createObjectURL : File → String) (trace : List Event) :
    previewMatchesSomeInput createObjectURL (run createObjectURL trace).app :=
  runFrom_preview createObjectURL trace initialSystem (Or.inl rfl)

end OcrApp
